import Mathlib

/-!
Verification of the Arena Companion extension core logic.

The definitions below are a shallow embedding of the JavaScript sources:
`src/background/service-worker.js` (selection sanitization, prompt creation,
pending-action storage), `src/content/content-script.js` (storage polling,
prompt injection, element discovery, processed-id bookkeeping),
`src/sidepanel/scripts/main.js` (processed-id bookkeeping) and
`src/utils/user-details.js` (user-data persistence).

JavaScript strings are modelled as `String`/`List Char`, epoch-millisecond
times as `Int`, and the single-pass global regex replacements of the
sanitizers as explicit left-to-right scanners.  The asynchronous content
script is additionally modelled as a small-step machine whose atomic steps
are the synchronous blocks between `await` suspension points, so that the
interleaving of the fast-phase and steady-state pollers can be analyzed.
-/

namespace ArenaCompanion

/-- JavaScript truthiness of an optional string field: `undefined` and the
empty string are falsy, every other string is truthy. -/
def jsTruthy : Option String → Bool
  | none => false
  | some s => s ≠ ""

/-- JavaScript `\s` (ASCII part): space, tab, newline, carriage return,
vertical tab, form feed. -/
def isJsSpace (c : Char) : Bool :=
  c = ' ' || c = '\t' || c = '\n' || c = '\r' || c = '\x0b' || c = '\x0c'

/-- JavaScript `\w`: ASCII letters, digits and underscore. -/
def isWordChar (c : Char) : Bool :=
  c.isAlpha || c.isDigit || c = '_'

/-- JavaScript `String.prototype.trim` on a character list (ASCII whitespace). -/
def jsTrim (l : List Char) : List Char :=
  ((l.dropWhile isJsSpace).reverse.dropWhile isJsSpace).reverse

/-- Case-insensitive literal match at the head of the input.  The pattern is
given in lowercase; comparison lowercases the input character. -/
def ciLiteralAt : List Char → List Char → Bool
  | [], _ => true
  | _ :: _, [] => false
  | p :: ps, c :: cs => c.toLower = p && ciLiteralAt ps cs

/-- Index of the first case-insensitive occurrence of a literal pattern. -/
def findCiSub (pat : List Char) : List Char → Option Nat
  | [] => if ciLiteralAt pat [] then some 0 else none
  | c :: cs =>
    if ciLiteralAt pat (c :: cs) then some 0
    else (findCiSub pat cs).map (· + 1)

/-- Matcher for the regex `<script\b[^<]*(?:(?!<\/script>)<[^<]*)*<\/script>` of
`sanitizeSelection` (case-insensitive): an opening `<script` with a word
boundary, then anything up to and including the first `</script>`.  Returns
the number of characters matched at the head of the input. -/
def matchScriptBlock (l : List Char) : Option Nat :=
  if ciLiteralAt ("<script".toList) l then
    match l.drop 7 with
    | [] => none
    | c :: cs =>
      if isWordChar c then none
      else
        match findCiSub ("</script>".toList) (c :: cs) with
        | some i => some (7 + i + 9)
        | none => none
  else none

/-- Matcher for the regex `<[^>]+>` of `sanitizeSelection`: a `<`, at least one
character that is not `>`, then `>`. -/
def matchTag : List Char → Option Nat
  | '<' :: rest =>
    let k := (rest.takeWhile (fun c => c ≠ '>')).length
    if 1 ≤ k ∧ k < rest.length then some (k + 2) else none
  | _ => none

/-- Matcher for a case-insensitive literal regex such as `javascript:`. -/
def matchCiLiteral (pat : List Char) (l : List Char) : Option Nat :=
  if ciLiteralAt pat l then some pat.length else none

/-- Matcher for the regex `on\w+\s*=` of `sanitizeSelection`
(case-insensitive): `on`, at least one word character, optional whitespace,
then `=`. -/
def matchOnHandler : List Char → Option Nat
  | c1 :: c2 :: rest =>
    if c1.toLower = 'o' ∧ c2.toLower = 'n' then
      let w := (rest.takeWhile isWordChar).length
      if 1 ≤ w then
        let afterWord := rest.drop w
        let sp := (afterWord.takeWhile isJsSpace).length
        match afterWord.drop sp with
        | '=' :: _ => some (2 + w + sp + 1)
        | _ => none
      else none
    else none
  | _ => none

/-- Matcher for the character class `[<>'"&]` used by `sanitizeInput` in
`user-details.js`. -/
def matchBadChar : List Char → Option Nat
  | c :: _ =>
    if c = '<' ∨ c = '>' ∨ c = '\x27' ∨ c = '"' ∨ c = '&' then some 1 else none
  | _ => none

/-- One global-replace pass with empty replacement, as performed by
`String.prototype.replace` with a `/g` regex: scan left to right, delete each
leftmost non-overlapping match, and never rescan produced text.  The fuel
argument (instantiated with the input length) only serves totality; every
matcher below consumes at least one character on a match. -/
def scanRemoveFuel (m : List Char → Option Nat) : Nat → List Char → List Char
  | _, [] => []
  | 0, l => l
  | fuel + 1, c :: cs =>
    match m (c :: cs) with
    | some k => scanRemoveFuel m fuel ((c :: cs).drop k)
    | none => c :: scanRemoveFuel m fuel cs

/-- Global-replace-with-empty pass over a character list. -/
def scanRemove (m : List Char → Option Nat) (l : List Char) : List Char :=
  scanRemoveFuel m l.length l

/-- `CONFIG.VALIDATION.MAX_SELECTION_LENGTH` from `constants.js`. -/
def MAX_SELECTION_LENGTH : Nat := 50000

/-- `sanitizeSelection` from `service-worker.js` on a character list: trim,
clamp to the maximum selection length, then the four global replacements
(script blocks, tags, `javascript:`, `on...=` handlers), each with empty
replacement. -/
def sanitizeChars (l : List Char) : List Char :=
  let t1 := jsTrim l
  let t2 := t1.take MAX_SELECTION_LENGTH
  let t3 := scanRemove matchScriptBlock t2
  let t4 := scanRemove matchTag t3
  let t5 := scanRemove (matchCiLiteral ("javascript:".toList)) t4
  scanRemove matchOnHandler t5

/-- `sanitizeSelection(text)` from `service-worker.js`; a falsy (empty) input
returns the empty string immediately. -/
def sanitizeSelection (text : String) : String :=
  if text = "" then "" else ⟨sanitizeChars text.toList⟩

/-- `PROMPT_TEMPLATES` from `constants.js`: templates exist exactly for
`summarize`, `explain` and `rewrite`. -/
def PROMPT_TEMPLATES : String → Option String
  | "summarize" => some "Summarize the following text:\n\n"
  | "explain" => some "Explain this concept in simple terms:\n\n"
  | "rewrite" => some "Rewrite and improve the following text:\n\n"
  | _ => none

/-- `createPrompt(action, selectedText)` from `service-worker.js`: sanitize,
return empty on empty sanitization; with a known template return
template ++ sanitized, otherwise log a warning and return the sanitized text
unchanged. -/
def createPrompt (action selectedText : String) : String :=
  let sanitized := sanitizeSelection selectedText
  if sanitized = "" then ""
  else
    match PROMPT_TEMPLATES action with
    | none => sanitized
    | some template => template ++ sanitized

example : sanitizeSelection "a<b> 1<2" = "a 1<2" := by decide
example : sanitizeSelection "javajavascript:script:" = "javascript:" := by decide
example : sanitizeSelection "oonload=nload=x" = "onload=x" := by decide
example : createPrompt "quizMe" "hello" = "hello" := by decide
example :
    createPrompt "summarize" "<script>alert(1)</script>hello"
      = "Summarize the following text:\n\nhello" := by decide

/-- The record stored under the key `arena_companion_pending_action`.  Fields
are optional strings so that records lacking a truthy `prompt` or `id` (as
tested by `!action.prompt || !action.id` in the content script) can be
represented. -/
structure StoredAction where
  prompt : Option String
  id : Option String
  timestamp : Int
deriving DecidableEq, Repr

/-- An outcome message sent to the background script by `notifyBackground`:
either `PROMPT_INJECTED` or `PROMPT_INJECTION_FAILED` with an error string. -/
inductive OutcomeMsg where
  | injected (actionId : String)
  | injectionFailed (actionId : String) (error : String)
deriving DecidableEq, Repr

/-- The shared state visible to one content-script context: the value under
the pending-action storage key, the `processedActionIds` set (as its
insertion-ordered element list), the outcome messages sent so far, and an
instrumentation list recording each injection attempt that proceeded past the
processed-id guard of `injectPrompt`. -/
structure SysState where
  storage : Option StoredAction
  processed : List String
  outcomes : List OutcomeMsg
  injections : List String
deriving DecidableEq, Repr

/-- `Set.prototype.add`: append the element unless already present
(insertion-ordered, first insertion wins). -/
def jsSetAdd (s : List String) (x : String) : List String :=
  if s.contains x then s else s ++ [x]

/-- `storePendingAction(prompt)` from `service-worker.js`: build the record
`{prompt, timestamp: Date.now(), id: generateUUID()}`, overwrite the
pending-action key with it, and return the id.  `now` stands for
`Date.now()` and `uuid` for the generated identifier. -/
def storePendingAction (prompt : String) (now : Int) (uuid : String)
    (s : SysState) : SysState × String :=
  ({ s with storage := some { prompt := some prompt, timestamp := now, id := some uuid } },
   uuid)

/-- A DOM element as observed by `isElementUsable`: its bounding rectangle,
computed style, and editability-related properties. -/
structure Element where
  width : Nat
  height : Nat
  display : String
  visibility : String
  contentEditable : String
  disabled : Bool
  readOnly : Bool
deriving DecidableEq, Repr

/-- `isElementUsable(element)` from `content-script.js`: visible (non-zero
rect), not hidden by computed style, and editable (contenteditable or
neither disabled nor read-only). -/
def isElementUsable (e : Element) : Bool :=
  let isVisible := decide (0 < e.width) && decide (0 < e.height)
  let isNotHidden := e.display ≠ "none" && e.visibility ≠ "hidden"
  let isEditable := e.contentEditable = "true" || (!e.disabled && !e.readOnly)
  isVisible && isNotHidden && isEditable

/-- `TEXTAREA_SELECTORS` from `content-script.js`, ordered by specificity. -/
def TEXTAREA_SELECTORS : List String :=
  ["textarea[placeholder*=\x22message\x22 i]",
   "textarea[placeholder*=\x22chat\x22 i]",
   "textarea[placeholder*=\x22type\x22 i]",
   "textarea[placeholder*=\x22ask\x22 i]",
   "textarea[aria-label*=\x22message\x22 i]",
   "textarea[aria-label*=\x22chat\x22 i]",
   "textarea[aria-label*=\x22input\x22 i]",
   "textarea.svelte-1ed2p3z",
   "textarea[data-testid*=\x22input\x22]",
   "textarea[role=\x22textbox\x22]",
   "div[contenteditable=\x22true\x22][role=\x22textbox\x22]",
   "div[contenteditable=\x22true\x22]",
   "textarea"]

/-- `BUTTON_SELECTORS` from `content-script.js`. -/
def BUTTON_SELECTORS : List String :=
  ["button[aria-label*=\x22send\x22 i]",
   "button[aria-label*=\x22submit\x22 i]",
   "button[title*=\x22send\x22 i]",
   "button[title*=\x22submit\x22 i]",
   "button:has(svg[data-testid=\x22send\x22])",
   "button:has(svg):not([aria-label*=\x22stop\x22 i]):not([aria-label*=\x22cancel\x22 i])",
   "button.primary",
   "button[type=\x22submit\x22]",
   "form button:last-of-type"]

/-- A DOM snapshot: `querySelectorAll`, i.e. the elements matching each
selector string, in document order. -/
def Dom : Type := String → List Element

/-- `MAX_TEXTAREA_ATTEMPTS` from `content-script.js`. -/
def MAX_TEXTAREA_ATTEMPTS : Nat := 15

/-- The selector loop shared by `findTextarea` and `findSendButton`: for each
selector in order, return the first matching element that is usable. -/
def findFirstUsable (dom : Dom) : List String → Option Element
  | [] => none
  | sel :: rest =>
    match (dom sel).find? isElementUsable with
    | some e => some e
    | none => findFirstUsable dom rest

/-- The retry loop of `findTextarea`, with the number of remaining retries
made explicit (the source recurses while `attempt < MAX_TEXTAREA_ATTEMPTS`).
The DOM snapshot is fixed across retries. -/
def findTextareaFuel (dom : Dom) : Nat → Option Element
  | 0 =>
    findFirstUsable dom TEXTAREA_SELECTORS
  | fuel + 1 =>
    match findFirstUsable dom TEXTAREA_SELECTORS with
    | some e => some e
    | none => findTextareaFuel dom fuel

/-- `findTextarea(attempt)` from `content-script.js` over a fixed DOM
snapshot: search the ordered selectors for a usable element, retrying while
`attempt < MAX_TEXTAREA_ATTEMPTS`. -/
def findTextarea (dom : Dom) (attempt : Nat) : Option Element :=
  findTextareaFuel dom (MAX_TEXTAREA_ATTEMPTS - attempt)

/-- `findSendButton()` from `content-script.js` (no retry loop). -/
def findSendButton (dom : Dom) : Option Element :=
  findFirstUsable dom BUTTON_SELECTORS

/-- `injectPrompt(prompt, actionId)` from `content-script.js` (pure part):
if the actionId is already in the processed set, return `false` without any
effect; otherwise mark it processed, record the injection attempt, search for
the textarea and either report `PROMPT_INJECTED` (send button or not) or
`PROMPT_INJECTION_FAILED` when no textarea is found.  Returns the success
flag together with the updated state. -/
def injectPrompt (dom : Dom) (prompt actionId : String) (s : SysState) :
    Bool × SysState :=
  if s.processed.contains actionId then
    (false, s)
  else
    let s1 := { s with
      processed := jsSetAdd s.processed actionId,
      injections := s.injections ++ [actionId] }
    match findTextarea dom 0 with
    | none =>
      (false, { s1 with
        outcomes := s1.outcomes ++ [.injectionFailed actionId "Textarea not found"] })
    | some _ =>
      (true, { s1 with outcomes := s1.outcomes ++ [.injected actionId] })

/-- The branch taken by the synchronous head of `checkPendingActions` after
the storage read resolves (lines 338-360 of `content-script.js`). -/
inductive CheckBranch where
  | notFound
  | expired
  | alreadyProcessed
  | proceed (prompt id : String)
deriving DecidableEq, Repr

/-- Classification of a read pending-action record, in source order: falsy
record, falsy `prompt` or falsy `id` → not found; `now - timestamp` beyond
the expiry → expired; id already in the processed set → duplicate; otherwise
proceed with the record payload. -/
def checkClassify (expiryMs now : Int) (processed : List String) :
    Option StoredAction → CheckBranch
  | none => .notFound
  | some a =>
    match a.prompt, a.id with
    | some p, some i =>
      if p = "" ∨ i = "" then .notFound
      else if expiryMs < now - a.timestamp then .expired
      else if processed.contains i then .alreadyProcessed
      else .proceed p i
    | _, _ => .notFound

/-- `ACTION_EXPIRY_MS` from `content-script.js` (60 second expiry). -/
def ACTION_EXPIRY_MS : Int := 60000

/-- `CONFIG.TIMEOUTS.ACTION_EXPIRY` from `constants.js` (30 second expiry,
used by the side-panel variant of the poller). -/
def ACTION_EXPIRY : Int := 30000

/-- `checkPendingActions()` from `content-script.js`, run in isolation (no
interleaved poller): read the pending-action key; on a missing or malformed
record return `false` with no state change; on an expired record delete it
and return `false`; on an already-processed id delete it and return `false`;
otherwise delete the key first, then inject, and return `true`.  `expiryMs`
is the expiry constant, `now` the value of `Date.now()` at the read. -/
def checkPendingActions (expiryMs now : Int) (dom : Dom) (s : SysState) :
    Bool × SysState :=
  match checkClassify expiryMs now s.processed s.storage with
  | .notFound => (false, s)
  | .expired => (false, { s with storage := none })
  | .alreadyProcessed => (false, { s with storage := none })
  | .proceed p i =>
    let s1 := { s with storage := none }
    let r := injectPrompt dom p i s1
    (true, r.2)

/-- The periodic `processedActionIds` cleanup shared verbatim by
`content-script.js` and `sidepanel/scripts/main.js`: when the set holds more
than 100 ids, keep `Array.from(set).slice(-50)` (the 50 most recently
inserted), clear the set, and re-add the kept ids in order. -/
def cleanupProcessedIds (ids : List String) : List String :=
  if 100 < ids.length then
    let idsToKeep := ids.drop (ids.length - 50)
    idsToKeep.foldl jsSetAdd []
  else ids

/-!
Small-step model of `checkPendingActions` for interleaved pollers.

Within one content-script context the fast-phase and steady-state interval
callbacks are serialized by the event loop, but each `await` in
`checkPendingActions` is a suspension point at which the other callback's
continuation may run.  The synchronous blocks between suspension points are
therefore the atomic steps: (1) the storage read resolving, (2) the block
from the read result through the `chrome.storage.local.remove` call
(lines 338-360), (3) the processed-id guard plus `processedActionIds.add` at
the head of `injectPrompt` (lines 276-282, no `await` in between), and
(4) the remainder of `injectPrompt` through `notifyBackground`.
-/

/-- How one poller's call to `checkPendingActions` terminated (ghost
instrumentation; it does not influence the dynamics). -/
inductive Fate where
  | readAbsent
  | malformed
  | expiredRec
  | dupInCheck
  | guardBlocked
  | injectedOk
  | injectFailed
deriving DecidableEq, Repr

/-- Program counter of one in-flight `checkPendingActions` call, positioned
at the suspension points described above. -/
inductive PollerPC where
  | start
  | ready (a : Option StoredAction)
  | waiting (prompt id : String)
  | running (prompt id : String)
  | done (ret : Bool) (fate : Fate)
deriving DecidableEq, Repr

/-- One atomic step of a poller: from `start` the storage read resolves; from
`ready` the synchronous classification block runs (deleting the key on the
expired, duplicate and proceed branches); from `waiting` the processed-id
guard of `injectPrompt` runs (marking the id processed and recording the
attempt when it passes); from `running` the injection completes and the
outcome message is recorded.  `now` is the poller's `Date.now()` at the
classification. -/
def pollerStep (expiryMs now : Int) (dom : Dom) (sys : SysState) :
    PollerPC → SysState × PollerPC
  | .start => (sys, .ready sys.storage)
  | .ready a =>
    match checkClassify expiryMs now sys.processed a with
    | .notFound =>
      (sys, .done false (if a = none then .readAbsent else .malformed))
    | .expired => ({ sys with storage := none }, .done false .expiredRec)
    | .alreadyProcessed => ({ sys with storage := none }, .done false .dupInCheck)
    | .proceed p i => ({ sys with storage := none }, .waiting p i)
  | .waiting p i =>
    if sys.processed.contains i then (sys, .done true .guardBlocked)
    else
      ({ sys with
          processed := jsSetAdd sys.processed i,
          injections := sys.injections ++ [i] },
       .running p i)
  | .running _ i =>
    match findTextarea dom 0 with
    | none =>
      ({ sys with outcomes := sys.outcomes ++ [.injectionFailed i "Textarea not found"] },
       .done true .injectFailed)
    | some _ =>
      ({ sys with outcomes := sys.outcomes ++ [.injected i] },
       .done true .injectedOk)
  | .done r f => (sys, .done r f)

/-- A configuration of the two-poller system: the shared state and the two
program counters (poller 1 models one interval callback, poller 2 the
other). -/
structure Config where
  sys : SysState
  pc1 : PollerPC
  pc2 : PollerPC
deriving DecidableEq, Repr

/-- Advance the poller selected by the scheduling bit (`true` steps poller 1,
which observes `Date.now() = now1`; `false` steps poller 2). -/
def stepConfig (expiryMs now1 now2 : Int) (dom : Dom) (b : Bool) (c : Config) :
    Config :=
  if b then
    let r := pollerStep expiryMs now1 dom c.sys c.pc1
    { c with sys := r.1, pc1 := r.2 }
  else
    let r := pollerStep expiryMs now2 dom c.sys c.pc2
    { c with sys := r.1, pc2 := r.2 }

/-- Run the two-poller system under an arbitrary schedule of atomic steps. -/
def runSched (expiryMs now1 now2 : Int) (dom : Dom) :
    List Bool → Config → Config
  | [], c => c
  | b :: rest, c => runSched expiryMs now1 now2 dom rest (stepConfig expiryMs now1 now2 dom b c)

/-- A poller that has terminated. -/
def pcDone : PollerPC → Bool
  | .done _ _ => true
  | _ => false

/-!
User-details persistence (`src/utils/user-details.js`).

`Date` parsing and the email regex of `CONFIG.VALIDATION.EMAIL_REGEX` are
environment oracles here (`isoOk`, `emailOk`); the claims below hold for
every oracle.  The result of the underlying `storage.set` call is a
parameter `setOutcome`: `.error e` models a rejected storage write (the
thrown error), `.ok ()` a successful one.
-/

/-- The `{name, email, lastActive}` user-details record. -/
structure UserDetails where
  name : String
  email : String
  lastActive : Option String
deriving DecidableEq, Repr

/-- `CONFIG.VALIDATION.MAX_NAME_LENGTH`. -/
def MAX_NAME_LENGTH : Nat := 255

/-- `CONFIG.VALIDATION.MAX_EMAIL_LENGTH`. -/
def MAX_EMAIL_LENGTH : Nat := 320

/-- `validateUserDetails(details)` from `user-details.js`: string name within
the length bound, string email within the length bound, and `lastActive`
either null or a parseable date (per the `isoOk` oracle). -/
def validateUserDetails (isoOk : String → Bool) (d : UserDetails) : Bool :=
  decide (d.name.length ≤ MAX_NAME_LENGTH) &&
  decide (d.email.length ≤ MAX_EMAIL_LENGTH) &&
  (match d.lastActive with
   | none => true
   | some s => isoOk s)

/-- `sanitizeInput(input, maxLength)` from `user-details.js`: trim, the four
selection-sanitizer replacement passes, one more pass removing the characters
of the class `[<>'"&]`, then clamp to `maxLength`. -/
def sanitizeInput (input : String) (maxLength : Nat) : String :=
  let t1 := jsTrim input.toList
  let t2 := scanRemove matchScriptBlock t1
  let t3 := scanRemove matchTag t2
  let t4 := scanRemove (matchCiLiteral ("javascript:".toList)) t3
  let t5 := scanRemove matchOnHandler t4
  let t6 := scanRemove matchBadChar t5
  ⟨t6.take maxLength⟩

/-- `userDetails.save(details)` from `user-details.js`: throw on invalid
details or invalid non-empty email; otherwise sanitize the fields, stamp
`lastActive`, and write through `storage.set` — rethrowing whatever error the
storage write raises.  On success the saved record is returned so the write
is observable. -/
def userDetailsSave (isoOk emailOk : String → Bool) (nowIso : String)
    (setOutcome : Except String Unit) (d : UserDetails) :
    Except String UserDetails :=
  if ¬ validateUserDetails isoOk d then
    .error "Invalid user details format"
  else if d.email ≠ "" ∧ ¬ emailOk d.email then
    .error "Invalid email format"
  else
    let dataToSave : UserDetails :=
      { name := sanitizeInput d.name MAX_NAME_LENGTH,
        email := sanitizeInput d.email MAX_EMAIL_LENGTH,
        lastActive := some nowIso }
    match setOutcome with
    | .error e => .error e
    | .ok _ => .ok dataToSave

/-- `userDetails.updateLastVisit()` from `user-details.js`: write the
timestamp through `storage.set`; any storage error is caught, logged and
swallowed (the function never rethrows). -/
def userDetailsUpdateLastVisit (setOutcome : Except String Unit) :
    Except String Unit :=
  match setOutcome with
  | .error _ => .ok ()
  | .ok _ => .ok ()

/-! ### Helper lemmas -/

/-- A global-replace pass never lengthens the text. -/
theorem scanRemoveFuel_length_le (m : List Char → Option Nat) :
    ∀ (fuel : Nat) (l : List Char),
      (scanRemoveFuel m fuel l).length ≤ l.length := by
  intro fuel
  induction fuel with
  | zero => intro l; cases l <;> simp [scanRemoveFuel]
  | succ n ih =>
    intro l
    cases l with
    | nil => simp [scanRemoveFuel]
    | cons c cs =>
      rw [scanRemoveFuel]
      cases h : m (c :: cs) with
      | none =>
        simpa using Nat.succ_le_succ (ih cs)
      | some k =>
        calc (scanRemoveFuel m n ((c :: cs).drop k)).length
            ≤ ((c :: cs).drop k).length := ih _
          _ ≤ (c :: cs).length := by
              simp only [List.length_drop]
              omega

/-- A global-replace pass never lengthens the text. -/
theorem scanRemove_length_le (m : List Char → Option Nat) (l : List Char) :
    (scanRemove m l).length ≤ l.length :=
  scanRemoveFuel_length_le m l.length l

/-- Dropping a prefix never lengthens the text. -/
theorem dropWhile_length_le (p : Char → Bool) :
    ∀ l : List Char, (l.dropWhile p).length ≤ l.length := by
  intro l
  induction l with
  | nil => simp
  | cons c cs ih =>
    rw [List.dropWhile_cons]
    split
    · exact le_trans ih (by simp)
    · simp

/-- Trimming never lengthens the text. -/
theorem jsTrim_length_le (l : List Char) : (jsTrim l).length ≤ l.length := by
  unfold jsTrim
  calc ((l.dropWhile isJsSpace).reverse.dropWhile isJsSpace).reverse.length
      = ((l.dropWhile isJsSpace).reverse.dropWhile isJsSpace).length := by
        simp
    _ ≤ (l.dropWhile isJsSpace).reverse.length := dropWhile_length_le _ _
    _ = (l.dropWhile isJsSpace).length := by simp
    _ ≤ l.length := dropWhile_length_le _ _

/-- `Set`-style re-insertion of a duplicate-free list into an accumulator it
is disjoint from appends it unchanged. -/
theorem foldl_jsSetAdd_of_nodup :
    ∀ (l acc : List String), (acc ++ l).Nodup → l.foldl jsSetAdd acc = acc ++ l := by
  intro l
  induction l with
  | nil => intro acc _; simp
  | cons x xs ih =>
    intro acc h
    have hx : x ∉ acc := by
      intro hmem
      exact (List.disjoint_of_nodup_append h hmem (by simp))
    have hadd : jsSetAdd acc x = acc ++ [x] := by
      unfold jsSetAdd
      rw [if_neg]
      simpa using hx
    have h2 : ((acc ++ [x]) ++ xs).Nodup := by
      simpa using h
    calc (x :: xs).foldl jsSetAdd acc = xs.foldl jsSetAdd (jsSetAdd acc x) := by
          simp [List.foldl_cons]
      _ = xs.foldl jsSetAdd (acc ++ [x]) := by rw [hadd]
      _ = (acc ++ [x]) ++ xs := ih (acc ++ [x]) h2
      _ = acc ++ x :: xs := by simp

/-- The selector loop only returns usable elements. -/
theorem findFirstUsable_usable (dom : Dom) :
    ∀ (sels : List String) (e : Element),
      findFirstUsable dom sels = some e → isElementUsable e = true := by
  intro sels
  induction sels with
  | nil => intro e h; simp [findFirstUsable] at h
  | cons sel rest ih =>
    intro e h
    rw [findFirstUsable] at h
    cases hfind : (dom sel).find? isElementUsable with
    | some e0 =>
      rw [hfind] at h
      cases h
      exact List.find?_some hfind
    | none =>
      rw [hfind] at h
      exact ih e h

/-- The retry loop only returns usable elements. -/
theorem findTextareaFuel_usable (dom : Dom) :
    ∀ (fuel : Nat) (e : Element),
      findTextareaFuel dom fuel = some e → isElementUsable e = true := by
  intro fuel
  induction fuel with
  | zero => intro e h; exact findFirstUsable_usable dom _ e h
  | succ n ih =>
    intro e h
    rw [findTextareaFuel] at h
    cases hfind : findFirstUsable dom TEXTAREA_SELECTORS with
    | some e0 =>
      rw [hfind] at h
      cases h
      exact findFirstUsable_usable dom _ e hfind
    | none =>
      rw [hfind] at h
      exact ih e h

/-- The length of a sanitized selection is bounded by the configured clamp. -/
theorem sanitizeChars_length_le (l : List Char) :
    (sanitizeChars l).length ≤ MAX_SELECTION_LENGTH := by
  simp only [sanitizeChars]
  refine le_trans (scanRemove_length_le _ _) ?_
  refine le_trans (scanRemove_length_le _ _) ?_
  refine le_trans (scanRemove_length_le _ _) ?_
  refine le_trans (scanRemove_length_le _ _) ?_
  simp [List.length_take]

/-! ### Claim theorems -/

/-- C4, counterexample: for the unrecognized action type `quizMe` (wired to a
context-menu entry but absent from `PROMPT_TEMPLATES`), `createPrompt` does
not return the empty string — it returns the sanitized selection itself. -/
theorem c4_counterexample :
    PROMPT_TEMPLATES "quizMe" = none ∧
    createPrompt "quizMe" "hello" = "hello" ∧ ("hello" : String) ≠ "" := by
  decide

/-- C4 (amended): `createPrompt` returns the empty string exactly when
sanitization of the selection yields the empty string; for an action type
with no template entry it logs a warning and returns the sanitized text
unchanged (so the caller proceeds with an untemplated prompt rather than
stopping). -/
theorem c4_amended (action text : String) :
    (sanitizeSelection text = "" → createPrompt action text = "") ∧
    (PROMPT_TEMPLATES action = none →
      createPrompt action text = sanitizeSelection text) := by
  constructor
  · intro h
    simp only [createPrompt, h, if_pos]
  · intro h
    simp only [createPrompt, h]
    by_cases hs : sanitizeSelection text = ""
    · simp [hs]
    · simp [hs]

/-- C4 amended, witness at concrete inputs. -/
theorem c4_amended_witness :
    createPrompt "quizMe" "" = "" ∧
    createPrompt "quizMe" "hi" = sanitizeSelection "hi" :=
  ⟨(c4_amended "quizMe" "").1 (by decide), (c4_amended "quizMe" "hi").2 (by decide)⟩

/-- C5, counterexample: the sanitizer's single-pass replacements let hostile
content through.  `a<b> 1<2` contains markup yet sanitizes to `a 1<2`, which
still holds a tag delimiter; `javajavascript:script:` sanitizes to exactly
`javascript:`; `oonload=nload=x` sanitizes to `onload=x`, which still matches
the event-handler pattern `on\w+\s*=`. -/
theorem c5_counterexample :
    sanitizeSelection "a<b> 1<2" = "a 1<2" ∧
    ("a 1<2".toList).contains '<' = true ∧
    sanitizeSelection "javajavascript:script:" = "javascript:" ∧
    sanitizeSelection "oonload=nload=x" = "onload=x" ∧
    matchOnHandler ("onload=x".toList) = some 7 := by
  decide

/-- C5 (amended): for every input string the output of `sanitizeSelection`
has length at most the configured maximum selection length; because the four
removals are single global passes, tag delimiters, `javascript:` substrings
and event-handler patterns assembled from split or overlapping occurrences
can survive in the output. -/
theorem c5_amended (text : String) :
    (sanitizeSelection text).length ≤ MAX_SELECTION_LENGTH := by
  unfold sanitizeSelection
  split
  · decide
  · exact sanitizeChars_length_le text.toList

/-- C6: for the selection `<script>alert(1)</script>hello` and the action
`summarize`, the created prompt is the summarize template followed by exactly
`hello`, and `storePendingAction` stores precisely that prompt in the
pending-action record. -/
theorem c6_stored_prompt :
    createPrompt "summarize" "<script>alert(1)</script>hello"
        = "Summarize the following text:\n\nhello" ∧
    ((storePendingAction
        (createPrompt "summarize" "<script>alert(1)</script>hello") 0 "uid"
        { storage := none, processed := [], outcomes := [], injections := [] }).1).storage
      = some { prompt := some "Summarize the following text:\n\nhello",
               id := some "uid", timestamp := 0 } := by
  decide

/-- C10: a poll that reads an absent record, or a record lacking a truthy
`prompt` or a truthy `id`, returns `false` and changes nothing: the record is
not deleted, nothing is marked processed, and no injection is attempted. -/
theorem c10_malformed_noop (expiryMs now : Int) (dom : Dom) (s : SysState)
    (h : s.storage = none ∨
         ∃ a, s.storage = some a ∧
           (jsTruthy a.prompt = false ∨ jsTruthy a.id = false)) :
    checkPendingActions expiryMs now dom s = (false, s) := by
  unfold checkPendingActions
  rcases h with h | ⟨a, ha, hbad⟩
  · rw [h]; rfl
  · rw [ha]
    obtain ⟨p?, i?, ts⟩ := a
    cases p? with
    | none => rfl
    | some p =>
      cases i? with
      | none => rfl
      | some i =>
        simp only [jsTruthy] at hbad
        have hcond : p = "" ∨ i = "" := by
          rcases hbad with h1 | h1
          · left; simpa using h1
          · right; simpa using h1
        simp [checkClassify, hcond]

/-- C10, witness: a record with an empty prompt is left untouched. -/
theorem c10_malformed_noop_witness :
    checkPendingActions ACTION_EXPIRY_MS 0 (fun _ => [])
        { storage := some { prompt := some "", id := some "x", timestamp := 0 },
          processed := [], outcomes := [], injections := [] }
      = (false,
         { storage := some { prompt := some "", id := some "x", timestamp := 0 },
           processed := [], outcomes := [], injections := [] }) :=
  c10_malformed_noop ACTION_EXPIRY_MS 0 (fun _ => []) _
    (Or.inr ⟨_, rfl, Or.inl (by decide)⟩)

/-- C3: with the stipulated 30000 ms expiry threshold
(`CONFIG.TIMEOUTS.ACTION_EXPIRY`), a valid pending action written with
timestamp 0 and polled at `Date.now() = 35000` is deleted from storage, no
injection is attempted (processed set, outcomes and attempts unchanged), and
the check reports not-found by returning `false`. -/
theorem c3_expired_poll (dom : Dom) (s : SysState) (a : StoredAction)
    (hs : s.storage = some a) (hp : jsTruthy a.prompt = true)
    (hi : jsTruthy a.id = true) (ht : a.timestamp = 0) :
    checkPendingActions ACTION_EXPIRY 35000 dom s
      = (false, { s with storage := none }) := by
  unfold checkPendingActions
  rw [hs]
  obtain ⟨p?, i?, ts⟩ := a
  cases p? with
  | none => simp [jsTruthy] at hp
  | some p =>
    cases i? with
    | none => simp [jsTruthy] at hi
    | some i =>
      simp only [jsTruthy] at hp hi
      simp only at ht
      subst ht
      have hp2 : ¬ (p = "" ∨ i = "") := by
        rintro (h | h)
        · rw [h] at hp; simp at hp
        · rw [h] at hi; simp at hi
      simp [checkClassify, hp2, ACTION_EXPIRY]

/-- C3, witness at a concrete record and state. -/
theorem c3_expired_poll_witness :
    checkPendingActions ACTION_EXPIRY 35000 (fun _ => [])
        { storage := some { prompt := some "p", id := some "x", timestamp := 0 },
          processed := [], outcomes := [], injections := [] }
      = (false,
         { storage := none, processed := [], outcomes := [], injections := [] }) :=
  c3_expired_poll (fun _ => []) _ _ rfl (by decide) (by decide) rfl

/-- C9: when the underlying storage write fails, `userDetails.save`
propagates the failure to its caller as a thrown error, while
`userDetails.updateLastVisit` swallows the storage error and returns
normally. -/
theorem c9_save_throws_lastVisit_swallows
    (isoOk emailOk : String → Bool) (nowIso e : String) (d : UserDetails)
    (hv : validateUserDetails isoOk d = true)
    (he : d.email = "" ∨ emailOk d.email = true) :
    userDetailsSave isoOk emailOk nowIso (.error e) d = .error e ∧
    userDetailsUpdateLastVisit (.error e) = .ok () := by
  refine ⟨?_, rfl⟩
  unfold userDetailsSave
  rw [if_neg (by simp [hv]), if_neg (by rcases he with h | h <;> simp [h])]

/-- C9, witness: the default empty user-details record under oracles
accepting everything. -/
theorem c9_save_throws_lastVisit_swallows_witness :
    userDetailsSave (fun _ => true) (fun _ => true) "2025-01-01T00:00:00.000Z"
        (.error "Failed to write to storage")
        { name := "", email := "", lastActive := none }
      = .error "Failed to write to storage" ∧
    userDetailsUpdateLastVisit (.error "Failed to write to storage") = .ok () :=
  c9_save_throws_lastVisit_swallows (fun _ => true) (fun _ => true)
    "2025-01-01T00:00:00.000Z" "Failed to write to storage"
    { name := "", email := "", lastActive := none } (by decide) (Or.inl rfl)

/-- C8: whenever the periodic cleanup observes more than 100 processed ids,
it rewrites the set to exactly the 50 most recently inserted identifiers (the
final segment of the insertion order); the evicted identifiers are precisely
the oldest, earliest-inserted prefix. -/
theorem c8_cleanup_trims (ids : List String) (hnd : ids.Nodup)
    (hlen : 100 < ids.length) :
    cleanupProcessedIds ids = ids.drop (ids.length - 50) ∧
    (cleanupProcessedIds ids).length = 50 ∧
    ids.take (ids.length - 50) ++ cleanupProcessedIds ids = ids := by
  have hkeep : (ids.drop (ids.length - 50)).Nodup :=
    hnd.sublist (List.drop_sublist _ _)
  have hcl : cleanupProcessedIds ids = ids.drop (ids.length - 50) := by
    unfold cleanupProcessedIds
    rw [if_pos hlen]
    simpa using foldl_jsSetAdd_of_nodup (ids.drop (ids.length - 50)) []
      (by simpa using hkeep)
  refine ⟨hcl, ?_, ?_⟩
  · rw [hcl]
    simp only [List.length_drop]
    omega
  · rw [hcl]
    exact List.take_append_drop _ _

/-- C8, witness: a set of 101 distinct identifiers is trimmed to its last
50. -/
theorem c8_cleanup_trims_witness :
    cleanupProcessedIds ((List.range 101).map (fun n => toString n))
        = ((List.range 101).map (fun n => toString n)).drop
            (((List.range 101).map (fun n => toString n)).length - 50) ∧
    (cleanupProcessedIds ((List.range 101).map (fun n => toString n))).length = 50 ∧
    ((List.range 101).map (fun n => toString n)).take
          (((List.range 101).map (fun n => toString n)).length - 50)
        ++ cleanupProcessedIds ((List.range 101).map (fun n => toString n))
      = (List.range 101).map (fun n => toString n) :=
  c8_cleanup_trims _ (by decide) (by decide)

/-- C7: `findTextarea` never returns an element that is zero-sized, hidden by
computed style, or disabled/read-only while not contenteditable — regardless
of which selector in the ordered list the element matched. -/
theorem c7_textarea_usable (dom : Dom) (attempt : Nat) (e : Element)
    (h : findTextarea dom attempt = some e) :
    0 < e.width ∧ 0 < e.height ∧ e.display ≠ "none" ∧ e.visibility ≠ "hidden" ∧
      (e.contentEditable = "true" ∨ (e.disabled = false ∧ e.readOnly = false)) := by
  have hu : isElementUsable e = true := findTextareaFuel_usable dom _ e h
  unfold isElementUsable at hu
  simp only [Bool.and_eq_true, Bool.or_eq_true, decide_eq_true_eq,
    Bool.not_eq_true', bne_iff_ne, ne_eq, beq_iff_eq] at hu
  tauto

/-- An unusable input element: zero-sized, hidden and disabled.  It matches
the first, most specific selector of the sample DOM below. -/
def unusableTextarea : Element :=
  { width := 0, height := 0, display := "none", visibility := "visible",
    contentEditable := "false", disabled := true, readOnly := true }

/-- A usable input element matching only the final catch-all selector. -/
def usableTextarea : Element :=
  { width := 400, height := 80, display := "block", visibility := "visible",
    contentEditable := "false", disabled := false, readOnly := false }

/-- A DOM snapshot in which an unusable element matches the first selector
while a usable one matches only the last, catch-all selector. -/
def sampleDom : Dom := fun sel =>
  if sel = "textarea[placeholder*=\x22message\x22 i]" then [unusableTextarea]
  else if sel = "textarea" then [usableTextarea]
  else []

/-- C7, witness: on the sample DOM the search skips the unusable
first-selector match and returns the usable catch-all match. -/
theorem c7_textarea_usable_witness :
    0 < usableTextarea.width ∧ 0 < usableTextarea.height ∧
      usableTextarea.display ≠ "none" ∧ usableTextarea.visibility ≠ "hidden" ∧
      (usableTextarea.contentEditable = "true" ∨
        (usableTextarea.disabled = false ∧ usableTextarea.readOnly = false)) :=
  c7_textarea_usable sampleDom 0 usableTextarea (by decide)

/-! ### Interleaving invariants for the two-poller machine -/

/-- The outcome message a successful guard passage eventually records, as
determined by the DOM snapshot. -/
def outFor (dom : Dom) (i : String) : OutcomeMsg :=
  match findTextarea dom 0 with
  | none => .injectionFailed i "Textarea not found"
  | some _ => .injected i

/-- The poller has executed the block that deletes the storage key (the
expired, duplicate and proceed branches of the classification, and every
position after a proceed). -/
def pcConsumed : PollerPC → Bool
  | .waiting _ _ => true
  | .running _ _ => true
  | .done _ f =>
    match f with
    | .dupInCheck => true
    | .guardBlocked => true
    | .injectedOk => true
    | .injectFailed => true
    | _ => false
  | _ => false

/-- The poller has passed the processed-id guard of `injectPrompt`. -/
def pcPassed : PollerPC → Bool
  | .running _ _ => true
  | .done _ f =>
    match f with
    | .injectedOk => true
    | .injectFailed => true
    | _ => false
  | _ => false

/-- The poller has recorded an outcome message. -/
def pcOuted : PollerPC → Bool
  | .done _ f =>
    match f with
    | .injectedOk => true
    | .injectFailed => true
    | _ => false
  | _ => false

/-- The poller observed the storage key to be absent. -/
def pcSawAbsent : PollerPC → Bool
  | .ready none => true
  | .done _ .readAbsent => true
  | _ => false

/-- The poller found the action id already in the processed set (either at
the classification or at the guard of `injectPrompt`). -/
def pcSawDup : PollerPC → Bool
  | .done _ .dupInCheck => true
  | .done _ .guardBlocked => true
  | _ => false

/-- Shape constraint on a poller's program counter while racing for the
well-formed, unexpired record `a` with payload `p`, `i`. -/
def okPC (a : StoredAction) (p i : String) : PollerPC → Prop
  | .start => True
  | .ready x => x = none ∨ x = some a
  | .waiting q j => q = p ∧ j = i
  | .running q j => q = p ∧ j = i
  | .done r f =>
    (r = false ∧ f = .readAbsent) ∨ (r = false ∧ f = .dupInCheck) ∨
      (r = true ∧ (f = .guardBlocked ∨ f = .injectedOk ∨ f = .injectFailed))

/-- Inductive invariant of the two pollers racing for one well-formed,
unexpired pending action `a` (payload `p`, `i`), starting from processed set
`proc0` (not containing `i`), outcome log `outs0` and attempt log `injs0`:
the storage key is deleted exactly once, the id enters the processed and
attempt logs exactly when some poller passed the guard, at most one poller
ever passes, at most one outcome is recorded, a poller can observe the key
absent only after the other consumed it, and a poller can observe the id as
a duplicate only after the other passed the guard. -/
def Inv2 (dom : Dom) (a : StoredAction) (p i : String)
    (proc0 : List String) (outs0 : List OutcomeMsg) (injs0 : List String)
    (sys : SysState) (pcA pcB : PollerPC) : Prop :=
  okPC a p i pcA ∧ okPC a p i pcB ∧
  sys.storage = (if pcConsumed pcA || pcConsumed pcB then none else some a) ∧
  sys.processed = (if pcPassed pcA || pcPassed pcB then proc0 ++ [i] else proc0) ∧
  ¬(pcPassed pcA = true ∧ pcPassed pcB = true) ∧
  sys.injections = (if pcPassed pcA || pcPassed pcB then injs0 ++ [i] else injs0) ∧
  sys.outcomes = (if pcOuted pcA || pcOuted pcB then outs0 ++ [outFor dom i] else outs0) ∧
  (pcSawAbsent pcA = true → pcConsumed pcB = true) ∧
  (pcSawAbsent pcB = true → pcConsumed pcA = true) ∧
  (pcSawDup pcA = true → pcPassed pcB = true) ∧
  (pcSawDup pcB = true → pcPassed pcA = true)

/-- The invariant is symmetric in the two pollers. -/
theorem Inv2_symm (dom : Dom) (a : StoredAction) (p i : String)
    (proc0 : List String) (outs0 : List OutcomeMsg) (injs0 : List String)
    (sys : SysState) (pcA pcB : PollerPC)
    (h : Inv2 dom a p i proc0 outs0 injs0 sys pcA pcB) :
    Inv2 dom a p i proc0 outs0 injs0 sys pcB pcA := by
  obtain ⟨h1, h2, h3, h4, h5, h6, h7, h8, h9, h10, h11⟩ := h
  refine ⟨h2, h1, ?_, ?_, ?_, ?_, ?_, h9, h8, h11, h10⟩
  · rwa [Bool.or_comm] at h3
  · rwa [Bool.or_comm] at h4
  · tauto
  · rwa [Bool.or_comm] at h6
  · rwa [Bool.or_comm] at h7

/-- The initial configuration of the race. -/
def initConfig (a : StoredAction) (proc0 : List String)
    (outs0 : List OutcomeMsg) (injs0 : List String) : Config :=
  { sys := { storage := some a, processed := proc0, outcomes := outs0,
             injections := injs0 },
    pc1 := .start, pc2 := .start }

/-- The invariant holds initially. -/
theorem Inv2_init (dom : Dom) (a : StoredAction) (p i : String)
    (proc0 : List String) (outs0 : List OutcomeMsg) (injs0 : List String) :
    Inv2 dom a p i proc0 outs0 injs0 (initConfig a proc0 outs0 injs0).sys
      .start .start := by
  refine ⟨trivial, trivial, ?_, ?_, ?_, ?_, ?_, ?_, ?_, ?_, ?_⟩ <;>
    simp [initConfig, pcConsumed, pcPassed, pcOuted, pcSawAbsent, pcSawDup]

/-- A recorded outcome implies a passed guard. -/
theorem pcOuted_passed (pc : PollerPC) (h : pcOuted pc = true) :
    pcPassed pc = true := by
  cases pc with
  | done r f => cases f <;> simp_all [pcOuted, pcPassed]
  | _ => simp [pcOuted] at h

/-- Inserting a fresh id into the processed set appends it. -/
theorem jsSetAdd_fresh (l : List String) (x : String)
    (h : l.contains x = false) : jsSetAdd l x = l ++ [x] := by
  have : x ∉ l := by simpa using h
  simp [jsSetAdd, this]

/-- One atomic step of either poller preserves the race invariant, provided
the record is well-formed, unexpired for the stepping poller's clock, and its
id is fresh with respect to the initial processed set. -/
theorem Inv2_step (dom : Dom) (a : StoredAction) (p i : String)
    (proc0 : List String) (outs0 : List OutcomeMsg) (injs0 : List String)
    (expiryMs now : Int)
    (hap : a.prompt = some p) (hai : a.id = some i) (hp : p ≠ "") (hi : i ≠ "")
    (hfresh : proc0.contains i = false)
    (hnow : ¬ expiryMs < now - a.timestamp)
    (sys : SysState) (pcA pcB : PollerPC)
    (h : Inv2 dom a p i proc0 outs0 injs0 sys pcA pcB) :
    Inv2 dom a p i proc0 outs0 injs0
      (pollerStep expiryMs now dom sys pcA).1
      (pollerStep expiryMs now dom sys pcA).2 pcB := by
  obtain ⟨h1, h2, h3, h4, h5, h6, h7, h8, h9, h10, h11⟩ := h
  have hBf : pcPassed pcB = true → pcSawDup pcB = false := by
    intro hb
    cases hd : pcSawDup pcB
    · rfl
    · cases pcB with
      | done r f => cases f <;> simp_all [pcSawDup, pcPassed]
      | _ => simp [pcSawDup] at hd
  cases pcA with
  | start =>
    simp only [pollerStep]
    refine ⟨?_, h2, ?_, ?_, ?_, ?_, ?_, ?_, ?_, ?_, ?_⟩
    · rw [h3]
      split
      · exact Or.inl rfl
      · exact Or.inr rfl
    · simpa [pcConsumed] using h3
    · simpa [pcPassed] using h4
    · simpa [pcPassed] using h5
    · simpa [pcPassed] using h6
    · simpa [pcOuted] using h7
    · intro habs
      rw [h3] at habs
      by_cases hc : (pcConsumed PollerPC.start || pcConsumed pcB) = true
      · simpa [pcConsumed] using hc
      · rw [if_neg hc] at habs
        simp [pcSawAbsent] at habs
    · intro hB
      have := h9 hB
      simp [pcConsumed] at this
    · intro hd
      simp [pcSawDup] at hd
    · intro hd
      have := h11 hd
      simp [pcPassed] at this
  | ready x =>
    rcases h1 with hx | hx
    · subst hx
      simp only [pollerStep, checkClassify]
      refine ⟨Or.inl ⟨rfl, rfl⟩, h2, ?_, ?_, ?_, ?_, ?_, ?_, ?_, ?_, ?_⟩
      · simpa [pcConsumed] using h3
      · simpa [pcPassed] using h4
      · simpa [pcPassed] using h5
      · simpa [pcPassed] using h6
      · simpa [pcOuted] using h7
      · intro _
        exact h8 (by simp [pcSawAbsent])
      · intro hB
        have := h9 hB
        simp [pcConsumed] at this
      · intro hd
        simp [pcSawDup] at hd
      · intro hd
        have := h11 hd
        simp [pcPassed] at this
    · subst hx
      have hcont : sys.processed.contains i = pcPassed pcB := by
        rw [h4]
        have hrw : (pcPassed (PollerPC.ready (some a)) || pcPassed pcB)
            = pcPassed pcB := by simp [pcPassed]
        rw [hrw]
        cases hb : pcPassed pcB
        · simpa using hfresh
        · simp
      have hcl : checkClassify expiryMs now sys.processed (some a)
          = (if pcPassed pcB = true then CheckBranch.alreadyProcessed
             else CheckBranch.proceed p i) := by
        simp only [checkClassify, hap, hai]
        rw [if_neg (by tauto), if_neg hnow]
        rw [hcont]
      simp only [pollerStep]
      rw [hcl]
      cases hb : pcPassed pcB with
      | true =>
        rw [if_pos rfl]
        refine ⟨Or.inr (Or.inl ⟨rfl, rfl⟩), h2, ?_, ?_, ?_, ?_, ?_, ?_, ?_, ?_, ?_⟩
        · simp [pcConsumed]
        · simpa [pcPassed, hb] using h4
        · simp [pcPassed]
        · simpa [pcPassed, hb] using h6
        · simpa [pcOuted] using h7
        · intro habs
          simp [pcSawAbsent] at habs
        · intro _
          simp [pcConsumed]
        · intro _
          exact hb
        · intro hd
          have := hBf hb
          rw [this] at hd
          cases hd
      | false =>
        rw [if_neg (by simp [hb])]
        refine ⟨⟨rfl, rfl⟩, h2, ?_, ?_, ?_, ?_, ?_, ?_, ?_, ?_, ?_⟩
        · simp [pcConsumed]
        · simpa [pcPassed, hb] using h4
        · simp [pcPassed]
        · simpa [pcPassed, hb] using h6
        · simpa [pcOuted] using h7
        · intro habs
          simp [pcSawAbsent] at habs
        · intro _
          simp [pcConsumed]
        · intro hd
          simp [pcSawDup] at hd
        · intro hd
          have := h11 hd
          simp [pcPassed] at this
  | waiting q j =>
    obtain ⟨rfl, rfl⟩ := h1
    have hcont : sys.processed.contains j = pcPassed pcB := by
      rw [h4]
      have hrw : (pcPassed (PollerPC.waiting q j) || pcPassed pcB)
          = pcPassed pcB := by simp [pcPassed]
      rw [hrw]
      cases hb : pcPassed pcB
      · simpa using hfresh
      · simp
    simp only [pollerStep]
    cases hb : pcPassed pcB with
    | true =>
      rw [hcont, hb, if_pos rfl]
      refine ⟨Or.inr (Or.inr ⟨rfl, Or.inl rfl⟩), h2, ?_, ?_, ?_, ?_, ?_, ?_, ?_, ?_, ?_⟩
      · simpa [pcConsumed] using h3
      · simpa [pcPassed] using h4
      · simpa [pcPassed] using h5
      · simpa [pcPassed] using h6
      · simpa [pcOuted] using h7
      · intro habs
        simp [pcSawAbsent] at habs
      · intro _
        simp [pcConsumed]
      · intro _
        exact hb
      · intro hd
        have := hBf hb
        rw [this] at hd
        cases hd
    | false =>
      rw [hcont, hb, if_neg (by simp)]
      have hproc : sys.processed = proc0 := by
        rw [h4, show pcPassed (PollerPC.waiting q j) = false from rfl, hb]
        simp
      have hinj : sys.injections = injs0 := by
        rw [h6, show pcPassed (PollerPC.waiting q j) = false from rfl, hb]
        simp
      refine ⟨⟨rfl, rfl⟩, h2, ?_, ?_, ?_, ?_, ?_, ?_, ?_, ?_, ?_⟩
      · simpa [pcConsumed] using h3
      · show jsSetAdd sys.processed j = _
        rw [hproc, jsSetAdd_fresh proc0 j hfresh]
        simp [pcPassed]
      · intro hc
        rw [hb] at hc
        simp at hc
      · show sys.injections ++ [j] = _
        rw [hinj]
        simp [pcPassed]
      · simpa [pcOuted] using h7
      · intro habs
        simp [pcSawAbsent] at habs
      · intro _
        simp [pcConsumed]
      · intro hd
        simp [pcSawDup] at hd
      · intro _
        simp [pcPassed]
  | running q j =>
    obtain ⟨rfl, rfl⟩ := h1
    have hbf : pcPassed pcB = false := by
      cases hpb : pcPassed pcB
      · rfl
      · exact absurd ⟨by simp [pcPassed], hpb⟩ h5
    have hBo : pcOuted pcB = false := by
      cases hob : pcOuted pcB
      · rfl
      · rw [pcOuted_passed pcB hob] at hbf
        cases hbf
    have houts : sys.outcomes = outs0 := by
      rw [h7, show pcOuted (PollerPC.running q j) = false from rfl, hBo]
      simp
    simp only [pollerStep]
    cases hft : findTextarea dom 0 with
    | none =>
      have hout : outFor dom j = OutcomeMsg.injectionFailed j "Textarea not found" := by
        simp only [outFor, hft]
      refine ⟨Or.inr (Or.inr ⟨rfl, Or.inr (Or.inr rfl)⟩), h2, ?_, ?_, ?_, ?_, ?_, ?_, ?_, ?_, ?_⟩
      · simpa [pcConsumed] using h3
      · simpa [pcPassed] using h4
      · intro hc
        rw [hbf] at hc
        simp at hc
      · simpa [pcPassed] using h6
      · simp [pcOuted, houts, hout]
      · intro habs
        simp [pcSawAbsent] at habs
      · intro _
        simp [pcConsumed]
      · intro hd
        simp [pcSawDup] at hd
      · intro _
        simp [pcPassed]
    | some e =>
      have hout : outFor dom j = OutcomeMsg.injected j := by
        simp only [outFor, hft]
      refine ⟨Or.inr (Or.inr ⟨rfl, Or.inr (Or.inl rfl)⟩), h2, ?_, ?_, ?_, ?_, ?_, ?_, ?_, ?_, ?_⟩
      · simpa [pcConsumed] using h3
      · simpa [pcPassed] using h4
      · intro hc
        rw [hbf] at hc
        simp at hc
      · simpa [pcPassed] using h6
      · simp [pcOuted, houts, hout]
      · intro habs
        simp [pcSawAbsent] at habs
      · intro _
        simp [pcConsumed]
      · intro hd
        simp [pcSawDup] at hd
      · intro _
        simp [pcPassed]
  | done r f =>
    exact ⟨h1, h2, h3, h4, h5, h6, h7, h8, h9, h10, h11⟩

/-- The race invariant is preserved by every schedule. -/
theorem Inv2_run (dom : Dom) (a : StoredAction) (p i : String)
    (proc0 : List String) (outs0 : List OutcomeMsg) (injs0 : List String)
    (expiryMs now1 now2 : Int)
    (hap : a.prompt = some p) (hai : a.id = some i) (hp : p ≠ "") (hi : i ≠ "")
    (hfresh : proc0.contains i = false)
    (hnow1 : ¬ expiryMs < now1 - a.timestamp)
    (hnow2 : ¬ expiryMs < now2 - a.timestamp) :
    ∀ (sched : List Bool) (c : Config),
      Inv2 dom a p i proc0 outs0 injs0 c.sys c.pc1 c.pc2 →
      Inv2 dom a p i proc0 outs0 injs0
        (runSched expiryMs now1 now2 dom sched c).sys
        (runSched expiryMs now1 now2 dom sched c).pc1
        (runSched expiryMs now1 now2 dom sched c).pc2 := by
  intro sched
  induction sched with
  | nil =>
    intro c h
    simpa [runSched] using h
  | cons b rest ih =>
    intro c h
    rw [runSched]
    apply ih
    cases b
    · have h' := Inv2_symm _ _ _ _ _ _ _ _ _ _ h
      have h'' := Inv2_step dom a p i proc0 outs0 injs0 expiryMs now2
        hap hai hp hi hfresh hnow2 c.sys c.pc2 c.pc1 h'
      have h3 := Inv2_symm _ _ _ _ _ _ _ _ _ _ h''
      simpa [stepConfig] using h3
    · have h'' := Inv2_step dom a p i proc0 outs0 injs0 expiryMs now1
        hap hai hp hi hfresh hnow1 c.sys c.pc1 c.pc2 h
      simpa [stepConfig] using h''

/-- Once both pollers have terminated, the race invariant yields the claim:
exactly one injection attempt was recorded, exactly one outcome message was
sent, and the blocked poller either observed the storage key absent or found
the id already in the processed set. -/
theorem Inv2_final (dom : Dom) (a : StoredAction) (p i : String)
    (proc0 : List String) (outs0 : List OutcomeMsg) (injs0 : List String)
    (sys : SysState) (pcA pcB : PollerPC)
    (h : Inv2 dom a p i proc0 outs0 injs0 sys pcA pcB)
    (hdA : pcDone pcA = true) (hdB : pcDone pcB = true) :
    sys.injections = injs0 ++ [i] ∧
    sys.outcomes = outs0 ++ [outFor dom i] ∧
    ((pcPassed pcA = true ∧ (pcSawAbsent pcB = true ∨ pcSawDup pcB = true)) ∨
     (pcPassed pcB = true ∧ (pcSawAbsent pcA = true ∨ pcSawDup pcA = true))) := by
  obtain ⟨h1, h2, h3, h4, h5, h6, h7, h8, h9, h10, h11⟩ := h
  cases pcA with
  | done rA fA =>
    cases pcB with
    | done rB fB =>
      cases fA <;> cases fB <;>
        simp_all [okPC, pcPassed, pcOuted, pcSawAbsent, pcSawDup, pcConsumed]
    | start => simp [pcDone] at hdB
    | ready x => simp [pcDone] at hdB
    | waiting q j => simp [pcDone] at hdB
    | running q j => simp [pcDone] at hdB
  | start => simp [pcDone] at hdA
  | ready x => simp [pcDone] at hdA
  | waiting q j => simp [pcDone] at hdA
  | running q j => simp [pcDone] at hdA

/-- C1: within one content-script context, when the fast-phase and the
steady-state pollers both run `checkPendingActions` against the same
well-formed, unexpired, unconsumed pending action, then under every
interleaving of their atomic steps in which both calls complete, exactly one
injection attempt proceeds past the processed-id guard of `injectPrompt`,
only that call records an outcome message, and the other poller either
observes the storage key already absent or finds the action id already in
the processed set. -/
theorem c1_exactly_one_injection
    (expiryMs now1 now2 : Int) (dom : Dom) (a : StoredAction) (p i : String)
    (proc0 : List String) (outs0 : List OutcomeMsg) (injs0 : List String)
    (hap : a.prompt = some p) (hai : a.id = some i) (hp : p ≠ "") (hi : i ≠ "")
    (hfresh : proc0.contains i = false)
    (hnow1 : ¬ expiryMs < now1 - a.timestamp)
    (hnow2 : ¬ expiryMs < now2 - a.timestamp)
    (sched : List Bool) (c : Config)
    (hc : runSched expiryMs now1 now2 dom sched (initConfig a proc0 outs0 injs0) = c)
    (hdone1 : pcDone c.pc1 = true) (hdone2 : pcDone c.pc2 = true) :
    c.sys.injections = injs0 ++ [i] ∧
    c.sys.outcomes = outs0 ++ [outFor dom i] ∧
    ((pcPassed c.pc1 = true ∧ (pcSawAbsent c.pc2 = true ∨ pcSawDup c.pc2 = true)) ∨
     (pcPassed c.pc2 = true ∧ (pcSawAbsent c.pc1 = true ∨ pcSawDup c.pc1 = true))) := by
  have hinv := Inv2_run dom a p i proc0 outs0 injs0 expiryMs now1 now2
    hap hai hp hi hfresh hnow1 hnow2 sched (initConfig a proc0 outs0 injs0)
    (Inv2_init dom a p i proc0 outs0 injs0)
  rw [hc] at hinv
  exact Inv2_final dom a p i proc0 outs0 injs0 c.sys c.pc1 c.pc2 hinv hdone1 hdone2

/-- The concrete record used by the C1 witness. -/
def c1WitnessAction : StoredAction :=
  { prompt := some "p", id := some "x", timestamp := 0 }

/-- The concrete final configuration of the C1 witness schedule: poller 1
runs to completion, then poller 2 finds the key already deleted. -/
def c1WitnessRun : Config :=
  runSched 60000 1000 1000 (fun _ => []) [true, true, true, true, false, false]
    (initConfig c1WitnessAction [] [] [])

/-- C1, witness: the race at a concrete record, schedule and DOM. -/
theorem c1_exactly_one_injection_witness :
    c1WitnessRun.sys.injections = [] ++ ["x"] ∧
    c1WitnessRun.sys.outcomes = [] ++ [outFor (fun _ => []) "x"] ∧
    ((pcPassed c1WitnessRun.pc1 = true ∧
        (pcSawAbsent c1WitnessRun.pc2 = true ∨ pcSawDup c1WitnessRun.pc2 = true)) ∨
     (pcPassed c1WitnessRun.pc2 = true ∧
        (pcSawAbsent c1WitnessRun.pc1 = true ∨ pcSawDup c1WitnessRun.pc1 = true))) :=
  c1_exactly_one_injection 60000 1000 1000 (fun _ => []) c1WitnessAction "p" "x"
    [] [] [] rfl rfl (by decide) (by decide) rfl (by decide) (by decide)
    [true, true, true, true, false, false] c1WitnessRun rfl
    (by decide) (by decide)

/-- The poller has taken the expired branch (which deletes the record). -/
def pcExpired : PollerPC → Bool
  | .done _ .expiredRec => true
  | _ => false

/-- Shape constraint on a poller's program counter while racing for a
well-formed record that is expired on both pollers' clocks: a poller can
only be before its read, have read the key (present or already deleted), or
have finished with `false` via the stale or not-found branch. -/
def okPCExp (a : StoredAction) : PollerPC → Prop
  | .start => True
  | .ready x => x = none ∨ x = some a
  | .waiting _ _ => False
  | .running _ _ => False
  | .done r f => r = false ∧ (f = .readAbsent ∨ f = .expiredRec)

/-- Inductive invariant for two pollers observing an expired record: the
processed set, the outcome log and the attempt log never change, the record
is deleted exactly by the first poller that classifies it, and a poller can
observe the key absent only after the other deleted it. -/
def InvExp (a : StoredAction) (proc0 : List String) (outs0 : List OutcomeMsg)
    (injs0 : List String) (sys : SysState) (pcA pcB : PollerPC) : Prop :=
  okPCExp a pcA ∧ okPCExp a pcB ∧
  sys.storage = (if pcExpired pcA || pcExpired pcB then none else some a) ∧
  sys.processed = proc0 ∧ sys.outcomes = outs0 ∧ sys.injections = injs0 ∧
  (pcSawAbsent pcA = true → pcExpired pcB = true) ∧
  (pcSawAbsent pcB = true → pcExpired pcA = true)

/-- The expired-record invariant is symmetric in the two pollers. -/
theorem InvExp_symm (a : StoredAction) (proc0 : List String)
    (outs0 : List OutcomeMsg) (injs0 : List String)
    (sys : SysState) (pcA pcB : PollerPC)
    (h : InvExp a proc0 outs0 injs0 sys pcA pcB) :
    InvExp a proc0 outs0 injs0 sys pcB pcA := by
  obtain ⟨h1, h2, h3, h4, h5, h6, h7, h8⟩ := h
  refine ⟨h2, h1, ?_, h4, h5, h6, h8, h7⟩
  rwa [Bool.or_comm] at h3

/-- The expired-record invariant holds initially. -/
theorem InvExp_init (a : StoredAction) (proc0 : List String)
    (outs0 : List OutcomeMsg) (injs0 : List String) :
    InvExp a proc0 outs0 injs0 (initConfig a proc0 outs0 injs0).sys
      .start .start := by
  refine ⟨trivial, trivial, ?_, rfl, rfl, rfl, ?_, ?_⟩ <;>
    simp [initConfig, pcExpired, pcSawAbsent]

/-- One atomic step of either poller preserves the expired-record invariant,
provided the record is well-formed and expired on the stepping poller's
clock. -/
theorem InvExp_step (dom : Dom) (a : StoredAction) (p i : String)
    (proc0 : List String) (outs0 : List OutcomeMsg) (injs0 : List String)
    (expiryMs now : Int)
    (hap : a.prompt = some p) (hai : a.id = some i) (hp : p ≠ "") (hi : i ≠ "")
    (hexp : expiryMs < now - a.timestamp)
    (sys : SysState) (pcA pcB : PollerPC)
    (h : InvExp a proc0 outs0 injs0 sys pcA pcB) :
    InvExp a proc0 outs0 injs0
      (pollerStep expiryMs now dom sys pcA).1
      (pollerStep expiryMs now dom sys pcA).2 pcB := by
  obtain ⟨h1, h2, h3, h4, h5, h6, h7, h8⟩ := h
  cases pcA with
  | start =>
    simp only [pollerStep]
    refine ⟨?_, h2, ?_, h4, h5, h6, ?_, ?_⟩
    · rw [h3]
      split
      · exact Or.inl rfl
      · exact Or.inr rfl
    · simpa [pcExpired] using h3
    · intro habs
      rw [h3] at habs
      by_cases hc : (pcExpired PollerPC.start || pcExpired pcB) = true
      · simpa [pcExpired] using hc
      · rw [if_neg hc] at habs
        simp [pcSawAbsent] at habs
    · intro hB
      have := h8 hB
      simp [pcExpired] at this
  | ready x =>
    rcases h1 with hx | hx
    · subst hx
      simp only [pollerStep, checkClassify]
      refine ⟨⟨rfl, Or.inl rfl⟩, h2, ?_, h4, h5, h6, ?_, ?_⟩
      · simpa [pcExpired] using h3
      · intro _
        exact h7 (by simp [pcSawAbsent])
      · intro hB
        have := h8 hB
        simp [pcExpired] at this
    · subst hx
      have hcl : checkClassify expiryMs now sys.processed (some a)
          = CheckBranch.expired := by
        simp only [checkClassify, hap, hai]
        rw [if_neg (by tauto), if_pos hexp]
      simp only [pollerStep]
      rw [hcl]
      refine ⟨⟨rfl, Or.inr rfl⟩, h2, ?_, h4, h5, h6, ?_, ?_⟩
      · simp [pcExpired]
      · intro habs
        simp [pcSawAbsent] at habs
      · intro _
        simp [pcExpired]
  | waiting q j => exact absurd h1 (by simp [okPCExp])
  | running q j => exact absurd h1 (by simp [okPCExp])
  | done r f =>
    exact ⟨h1, h2, h3, h4, h5, h6, h7, h8⟩

/-- The expired-record invariant is preserved by every schedule. -/
theorem InvExp_run (dom : Dom) (a : StoredAction) (p i : String)
    (proc0 : List String) (outs0 : List OutcomeMsg) (injs0 : List String)
    (expiryMs now1 now2 : Int)
    (hap : a.prompt = some p) (hai : a.id = some i) (hp : p ≠ "") (hi : i ≠ "")
    (hexp1 : expiryMs < now1 - a.timestamp)
    (hexp2 : expiryMs < now2 - a.timestamp) :
    ∀ (sched : List Bool) (c : Config),
      InvExp a proc0 outs0 injs0 c.sys c.pc1 c.pc2 →
      InvExp a proc0 outs0 injs0
        (runSched expiryMs now1 now2 dom sched c).sys
        (runSched expiryMs now1 now2 dom sched c).pc1
        (runSched expiryMs now1 now2 dom sched c).pc2 := by
  intro sched
  induction sched with
  | nil =>
    intro c h
    simpa [runSched] using h
  | cons b rest ih =>
    intro c h
    rw [runSched]
    apply ih
    cases b
    · have h' := InvExp_symm _ _ _ _ _ _ _ h
      have h'' := InvExp_step dom a p i proc0 outs0 injs0 expiryMs now2
        hap hai hp hi hexp2 c.sys c.pc2 c.pc1 h'
      have h3 := InvExp_symm _ _ _ _ _ _ _ h''
      simpa [stepConfig] using h3
    · have h'' := InvExp_step dom a p i proc0 outs0 injs0 expiryMs now1
        hap hai hp hi hexp1 c.sys c.pc1 c.pc2 h
      simpa [stepConfig] using h''

/-- C2: a well-formed pending action whose age exceeds the expiry threshold
at the moment each poller reads it is never acted upon under any
interleaving: no injection attempt, no outcome message and no processed-id
insertion ever occurs, every completed check terminated through the
not-found or stale branch returning `false`, and once both pollers have
completed the record has been deleted from storage. -/
theorem c2_expired_never_acted
    (expiryMs now1 now2 : Int) (dom : Dom) (a : StoredAction) (p i : String)
    (proc0 : List String) (outs0 : List OutcomeMsg) (injs0 : List String)
    (hap : a.prompt = some p) (hai : a.id = some i) (hp : p ≠ "") (hi : i ≠ "")
    (hexp1 : expiryMs < now1 - a.timestamp)
    (hexp2 : expiryMs < now2 - a.timestamp)
    (sched : List Bool) (c : Config)
    (hc : runSched expiryMs now1 now2 dom sched (initConfig a proc0 outs0 injs0) = c) :
    c.sys.injections = injs0 ∧ c.sys.outcomes = outs0 ∧ c.sys.processed = proc0 ∧
    (pcDone c.pc1 = true →
      c.pc1 = .done false .readAbsent ∨ c.pc1 = .done false .expiredRec) ∧
    (pcDone c.pc2 = true →
      c.pc2 = .done false .readAbsent ∨ c.pc2 = .done false .expiredRec) ∧
    (pcDone c.pc1 = true → pcDone c.pc2 = true → c.sys.storage = none) := by
  have hinv := InvExp_run dom a p i proc0 outs0 injs0 expiryMs now1 now2
    hap hai hp hi hexp1 hexp2 sched (initConfig a proc0 outs0 injs0)
    (InvExp_init a proc0 outs0 injs0)
  rw [hc] at hinv
  obtain ⟨h1, h2, h3, h4, h5, h6, h7, h8⟩ := hinv
  have hshape : ∀ pc : PollerPC, okPCExp a pc → pcDone pc = true →
      pc = .done false .readAbsent ∨ pc = .done false .expiredRec := by
    intro pc hok hd
    cases pc with
    | done r f =>
      obtain ⟨hr, hf⟩ := hok
      subst hr
      rcases hf with hf | hf <;> subst hf
      · exact Or.inl rfl
      · exact Or.inr rfl
    | start => simp [pcDone] at hd
    | ready x => simp [pcDone] at hd
    | waiting q j => simp [pcDone] at hd
    | running q j => simp [pcDone] at hd
  refine ⟨h6, h5, h4, hshape _ h1, hshape _ h2, ?_⟩
  intro hd1 hd2
  rcases hshape _ h1 hd1 with hA | hA <;> rcases hshape _ h2 hd2 with hB | hB
  · rw [hA] at h7
    have := h7 (by simp [pcSawAbsent])
    rw [hB] at this
    simp [pcExpired] at this
  · rw [h3, hB]
    simp [pcExpired]
  · rw [h3, hA]
    simp [pcExpired]
  · rw [h3, hA]
    simp [pcExpired]

/-- The concrete record used by the C2 witness. -/
def c2WitnessAction : StoredAction :=
  { prompt := some "p", id := some "x", timestamp := 0 }

/-- The concrete final configuration of the C2 witness schedule: poller 1
classifies the stale record and deletes it, then poller 2 finds the key
absent. -/
def c2WitnessRun : Config :=
  runSched 60000 70000 70000 (fun _ => []) [true, true, false, false]
    (initConfig c2WitnessAction [] [] [])

/-- C2, witness: the expired race at a concrete record and schedule. -/
theorem c2_expired_never_acted_witness :
    c2WitnessRun.sys.injections = [] ∧ c2WitnessRun.sys.outcomes = [] ∧
    c2WitnessRun.sys.processed = [] ∧
    (pcDone c2WitnessRun.pc1 = true →
      c2WitnessRun.pc1 = .done false .readAbsent ∨
        c2WitnessRun.pc1 = .done false .expiredRec) ∧
    (pcDone c2WitnessRun.pc2 = true →
      c2WitnessRun.pc2 = .done false .readAbsent ∨
        c2WitnessRun.pc2 = .done false .expiredRec) ∧
    (pcDone c2WitnessRun.pc1 = true → pcDone c2WitnessRun.pc2 = true →
      c2WitnessRun.sys.storage = none) :=
  c2_expired_never_acted 60000 70000 70000 (fun _ => []) c2WitnessAction "p" "x"
    [] [] [] rfl rfl (by decide) (by decide) (by decide) (by decide)
    [true, true, false, false] c2WitnessRun rfl

end ArenaCompanion
